import Mathlib

/-!
Verification of the glsim placement & composition engine against its
natural-language specification.

The definitions below are a shallow embedding of the converged service
variant (`v4.1`, file `src/unnamed/part_000`): the product classifier,
the placement registry and scaler/positioner, the request-identifier
parser, the design-asset download check, the generation pipeline's
decision structure, and the cache-bust file selection.

Modelling conventions:
* JavaScript strings are Lean `String`s; the string operations
  `toLowerCase`, `startsWith`, `indexOf`, `slice` and `replace` are
  modelled on the underlying character list (`String.data`), which the
  kernel can evaluate.
* JavaScript numbers (IEEE doubles) are modelled as exact rationals `ℚ`;
  `Math.round` is `jround`, rounding half toward positive infinity.
* The effectful pipeline (`generateImage` and the routes) is modelled as
  a pure function of an explicit environment `GenEnv` recording the
  outcomes of the filesystem, network, and image-library calls it makes.
-/

namespace GLSim

/-! ## Product classifier (src/unnamed/part_000 lines 22-48) -/

/-- The vocabulary table `PRODUCT_PREFIXES` (lines 22-39), in source order. -/
def PRODUCT_PREFIXES : List String := [
  "hoodie", "hoodieback", "ythhoodie", "ythhoodieback",
  "toddlerhoodie", "toddlerhoodieback", "jha009", "jha009back",
  "coach", "coachback", "workshirt", "workshirtback",
  "sweat", "sweatback", "youthsweat", "youthsweatback",
  "toddlersweat", "toddlersweatback",
  "onesie",
  "lstee", "lsteeback", "lsteehoodie", "lsteehoodieback",
  "performancelstee", "performancelsteeback",
  "tank", "tankback", "sleeveless", "sleevelessback",
  "raglan", "raglanback", "ring", "ringback",
  "nl6733", "nl3900", "nl3900back", "64v00l", "64v00lback",
  "youthtee", "youthteeback", "toddlertee", "toddlerteeback",
  "lunchbox", "tote", "sportbag", "5300", "nltbtee",
  "tee", "teeback", "td1000",
  "trucker", "ottowashed6p",
  "g5000real", "g5000realb", "g5000realc"]

/-- The loop body test of `getProductFromTemplate` (line 45):
`lower.startsWith(prefix + "-") || lower === prefix`, where
`lower = templateName.toLowerCase()`.  `toLowerCase` and `startsWith`
are modelled on the character list. -/
def matchesTemplate (p ident : String) : Bool :=
  let lower := ident.data.map Char.toLower
  List.isPrefixOf (p.data ++ ['-']) lower || lower == p.data

/-- Stable insertion step for sorting by string length, descending:
the element `a` passes every strictly shorter element. -/
def insertByLen (a : String) : List String → List String
  | [] => [a]
  | b :: t => if b.length < a.length then a :: b :: t else b :: insertByLen a t

/-- `PRODUCT_PREFIXES.slice().sort((a, b) => b.length - a.length)`
(line 43): a stable sort by length, descending. -/
def sortByLenDesc : List String → List String
  | [] => []
  | a :: t => insertByLen a (sortByLenDesc t)

/-- The sorted vocabulary the classifier's loop traverses. -/
def sortedVocab : List String := sortByLenDesc PRODUCT_PREFIXES

/-- `getProductFromTemplate` (lines 41-48): the first entry of the
length-sorted vocabulary that matches, `null` (here `none`) otherwise. -/
def getProductFromTemplate (templateName : String) : Option String :=
  List.find? (fun p => matchesTemplate p templateName) sortedVocab

/-- Ordering invariant of the sorted vocabulary: later entries are no
longer than earlier ones. -/
def lenGE (a b : String) : Prop := b.length ≤ a.length

theorem mem_insertByLen {x a : String} {l : List String} :
    x ∈ insertByLen a l ↔ x = a ∨ x ∈ l := by
  induction l with
  | nil => simp [insertByLen]
  | cons b t ih =>
    by_cases h : b.length < a.length
    · simp only [insertByLen, if_pos h, List.mem_cons]
    · simp only [insertByLen, if_neg h, List.mem_cons, ih]
      tauto

theorem pairwise_insertByLen {a : String} {l : List String}
    (h : l.Pairwise lenGE) : (insertByLen a l).Pairwise lenGE := by
  induction l with
  | nil => simp [insertByLen, lenGE]
  | cons b t ih =>
    rcases List.pairwise_cons.mp h with ⟨hb, ht⟩
    by_cases hab : b.length < a.length
    · rw [show insertByLen a (b :: t) = a :: b :: t by
        simp [insertByLen, if_pos hab]]
      refine List.pairwise_cons.mpr ⟨?_, List.pairwise_cons.mpr ⟨hb, ht⟩⟩
      intro y hy
      rcases List.mem_cons.mp hy with rfl | hyt
      · exact Nat.le_of_lt hab
      · exact Nat.le_trans (hb y hyt) (Nat.le_of_lt hab)
    · rw [show insertByLen a (b :: t) = b :: insertByLen a t by
        simp [insertByLen, if_neg hab]]
      refine List.pairwise_cons.mpr ⟨?_, ih ht⟩
      intro y hy
      rcases mem_insertByLen.mp hy with rfl | hyt
      · exact Nat.le_of_not_lt hab
      · exact hb y hyt

theorem mem_sortByLenDesc {x : String} :
    ∀ {l : List String}, x ∈ sortByLenDesc l ↔ x ∈ l := by
  intro l
  induction l with
  | nil => simp [sortByLenDesc]
  | cons a t ih => simp [sortByLenDesc, mem_insertByLen, ih]

theorem pairwise_sortByLenDesc : ∀ l : List String,
    (sortByLenDesc l).Pairwise lenGE
  | [] => by simp [sortByLenDesc]
  | a :: t => by
    simp only [sortByLenDesc]
    exact pairwise_insertByLen (pairwise_sortByLenDesc t)

theorem find?_length_max {f : String → Bool} :
    ∀ {l : List String} {r : String}, l.Pairwise lenGE → l.find? f = some r →
      ∀ p ∈ l, f p = true → p.length ≤ r.length := by
  intro l
  induction l with
  | nil => intro r _ h; simp at h
  | cons a t ih =>
    intro r hpw hf p hp hfp
    rcases List.pairwise_cons.mp hpw with ⟨ha, ht⟩
    by_cases hfa : f a = true
    · rw [List.find?_cons_of_pos t hfa] at hf
      injection hf with hr
      subst hr
      rcases List.mem_cons.mp hp with rfl | hpt
      · exact Nat.le_refl _
      · exact ha p hpt
    · rw [List.find?_cons_of_neg t (by simpa using hfa)] at hf
      rcases List.mem_cons.mp hp with rfl | hpt
      · exact absurd hfp hfa
      · exact ih ht hf p hpt hfp

/-- C1: for every template identifier that some vocabulary entry matches
(the lowercased identifier equals the entry or starts with it followed
by `"-"`), `getProductFromTemplate` returns a matching vocabulary entry
of maximal length among all matching entries — never a strictly shorter
one.  Identifiers with more than one matching entry are covered because
the bound is over every matching entry `q`. -/
theorem classify_longest_matching (ident p : String)
    (hp : p ∈ PRODUCT_PREFIXES) (hm : matchesTemplate p ident = true) :
    ∃ r, getProductFromTemplate ident = some r ∧ r ∈ PRODUCT_PREFIXES ∧
      matchesTemplate r ident = true ∧
      ∀ q ∈ PRODUCT_PREFIXES, matchesTemplate q ident = true →
        q.length ≤ r.length := by
  have hps : p ∈ sortedVocab := mem_sortByLenDesc.mpr hp
  have hsome : (sortedVocab.find? (fun q => matchesTemplate q ident)).isSome := by
    rw [List.find?_isSome]
    exact ⟨p, hps, hm⟩
  rcases Option.isSome_iff_exists.mp hsome with ⟨r, hr⟩
  refine ⟨r, hr, ?_, ?_, ?_⟩
  · exact mem_sortByLenDesc.mp (List.mem_of_find?_eq_some hr)
  · simpa using List.find?_some hr
  · intro q hq hfq
    exact find?_length_max (pairwise_sortByLenDesc _) hr q
      (mem_sortByLenDesc.mpr hq) hfq

/-- Witness for C1 at the concrete identifier `"hoodieback-navy"` and
matching entry `"hoodieback"` (the spec's disambiguation example). -/
theorem classify_longest_matching_witness :
    ∃ r, getProductFromTemplate "hoodieback-navy" = some r ∧
      r ∈ PRODUCT_PREFIXES ∧
      matchesTemplate r "hoodieback-navy" = true ∧
      ∀ q ∈ PRODUCT_PREFIXES, matchesTemplate q "hoodieback-navy" = true →
        q.length ≤ r.length :=
  classify_longest_matching "hoodieback-navy" "hoodieback" (by decide) (by decide)

/-! ## Request-identifier parser (src/unnamed/part_000 lines 113-116, 179)

`generateImage` computes `sep = file.indexOf("-", file.indexOf("-") + 1)`
(the index of the second hyphen, or `-1`), then
`tplName = file.slice(0, sep)` and
`dNum = file.slice(sep + 1).replace(".jpg", "")`.
The `/bust/:file` route derives the design number the same way.
`indexOf`, `slice` and `replace` are modelled with full JavaScript
semantics, including the `-1` not-found value and negative slice
indices. -/

/-- Index of the first occurrence of `c` in `s`, if any. -/
def findCharIdx (c : Char) : List Char → Option Nat
  | [] => none
  | a :: t => if a = c then some 0 else (findCharIdx c t).map (· + 1)

/-- `String.prototype.indexOf(c, start)`: `-1` when absent; a negative
`start` searches from the beginning. -/
def jsIndexOf (s : List Char) (c : Char) (start : Int) : Int :=
  match findCharIdx c (s.drop start.toNat) with
  | none => -1
  | some i => start.toNat + i

/-- Resolution of a JavaScript `slice` index: negative counts from the
end; the result is clamped to `[0, len]`. -/
def jsSliceIdx (len : Nat) (i : Int) : Nat :=
  if i < 0 then (len + i).toNat else min i.toNat len

/-- `String.prototype.slice(start, stop)`. -/
def jsSlice (s : List Char) (start stop : Int) : List Char :=
  (s.take (jsSliceIdx s.length stop)).drop (jsSliceIdx s.length start)

/-- `String.prototype.slice(start)` (to the end of the string). -/
def jsSliceFrom (s : List Char) (start : Int) : List Char :=
  s.drop (jsSliceIdx s.length start)

/-- `String.prototype.replace(pat, "")` with a string pattern: removes
the first occurrence of `pat`, if any. -/
def removeFirstOcc (pat : List Char) : List Char → List Char
  | [] => []
  | a :: t =>
    if List.isPrefixOf pat (a :: t) then (a :: t).drop pat.length
    else a :: removeFirstOcc pat t

/-- The parse performed by `generateImage` (lines 113-116): template
identifier and design number of a request file name. -/
def parseFile (file : List Char) : List Char × List Char :=
  let first := jsIndexOf file '-' 0
  let sep := jsIndexOf file '-' (first + 1)
  (jsSlice file 0 sep, removeFirstOcc ".jpg".data (jsSliceFrom file (sep + 1)))

theorem findCharIdx_eq_none {c : Char} {s : List Char} (h : c ∉ s) :
    findCharIdx c s = none := by
  induction s with
  | nil => rfl
  | cons a t ih =>
    rw [List.mem_cons, not_or] at h
    simp [findCharIdx, Ne.symm h.1, ih h.2]

theorem findCharIdx_append_of_not_mem {c : Char} {a s : List Char} (h : c ∉ a) :
    findCharIdx c (a ++ s) =
      (findCharIdx c s).map (fun i => a.length + i) := by
  induction a with
  | nil =>
    rw [List.nil_append]
    cases findCharIdx c s <;> simp
  | cons x t ih =>
    rw [List.mem_cons, not_or] at h
    rw [List.cons_append,
      show findCharIdx c (x :: (t ++ s)) = (findCharIdx c (t ++ s)).map (· + 1) by
        simp [findCharIdx, Ne.symm h.1],
      ih h.2]
    cases findCharIdx c s with
    | none => rfl
    | some i =>
      simp only [Option.map_some', List.length_cons]
      congr 1
      omega

theorem findCharIdx_cons_self (c : Char) (t : List Char) :
    findCharIdx c (c :: t) = some 0 := by
  simp [findCharIdx]

/-- First hyphen of `a ++ '-' :: r` when `a` is hyphen-free. -/
theorem findCharIdx_split {a r : List Char} (h : '-' ∉ a) :
    findCharIdx '-' (a ++ '-' :: r) = some a.length := by
  rw [findCharIdx_append_of_not_mem h, findCharIdx_cons_self]
  rfl

theorem drop_append_cons (a : List Char) (x : Char) (r : List Char) :
    (a ++ x :: r).drop (a.length + 1) = r := by
  have : a ++ x :: r = (a ++ [x]) ++ r := by simp
  rw [this, show a.length + 1 = (a ++ [x]).length by simp]
  exact List.drop_left _ _

theorem jsIndexOf_pos {s : List Char} {c : Char} {st : Int} {i : Nat}
    (h : findCharIdx c (s.drop st.toNat) = some i) :
    jsIndexOf s c st = st.toNat + i := by
  simp [jsIndexOf, h]

theorem jsIndexOf_neg {s : List Char} {c : Char} {st : Int}
    (h : findCharIdx c (s.drop st.toNat) = none) :
    jsIndexOf s c st = -1 := by
  simp [jsIndexOf, h]

/-- Parse of a request identifier with at least two hyphens, presented
as `a-b-c` with `a` and `b` hyphen-free (so the second hyphen of the
string is the one after `b`): the template identifier is everything
strictly before the second hyphen and the design number is everything
strictly after it, with the first `".jpg"` occurrence removed. -/
theorem parseFile_two_hyphens (a b c : List Char)
    (ha : '-' ∉ a) (hb : '-' ∉ b) :
    parseFile (a ++ '-' :: (b ++ '-' :: c)) =
      (a ++ '-' :: b, removeFirstOcc ".jpg".data c) := by
  have hfirst : jsIndexOf (a ++ '-' :: (b ++ '-' :: c)) '-' 0 = (a.length : Int) := by
    rw [jsIndexOf_pos (by rw [Int.toNat_zero, List.drop_zero]
                          exact findCharIdx_split ha)]
    simp
  have hdrop1 : (a ++ '-' :: (b ++ '-' :: c)).drop
      ((a.length : Int) + 1).toNat = b ++ '-' :: c := by
    rw [show ((a.length : Int) + 1).toNat = a.length + 1 by omega]
    exact drop_append_cons a '-' (b ++ '-' :: c)
  have hsep : jsIndexOf (a ++ '-' :: (b ++ '-' :: c)) '-' ((a.length : Int) + 1) =
      ((a.length + 1 + b.length : Nat) : Int) := by
    rw [jsIndexOf_pos (by rw [hdrop1]; exact findCharIdx_split hb)]
    omega
  have hlen : (a ++ '-' :: (b ++ '-' :: c)).length =
      a.length + 1 + b.length + 1 + c.length := by
    simp
    omega
  have hassoc : a ++ '-' :: (b ++ '-' :: c) = (a ++ '-' :: b) ++ '-' :: c := by
    simp
  have htake : (a ++ '-' :: (b ++ '-' :: c)).take (a.length + 1 + b.length) =
      a ++ '-' :: b := by
    rw [hassoc, show a.length + 1 + b.length = (a ++ '-' :: b).length by simp; omega]
    exact List.take_left _ _
  have hdrop2 : (a ++ '-' :: (b ++ '-' :: c)).drop (a.length + 1 + b.length + 1) =
      c := by
    rw [hassoc, show a.length + 1 + b.length + 1 = (a ++ '-' :: b).length + 1 by
      simp; omega]
    exact drop_append_cons _ '-' c
  rw [parseFile]
  rw [hfirst, hsep, Prod.mk.injEq]
  constructor
  · rw [jsSlice]
    rw [show jsSliceIdx (a ++ '-' :: (b ++ '-' :: c)).length 0 = 0 by
      simp [jsSliceIdx]]
    rw [show jsSliceIdx (a ++ '-' :: (b ++ '-' :: c)).length
        ((a.length + 1 + b.length : Nat) : Int) = a.length + 1 + b.length by
      rw [jsSliceIdx, if_neg (by omega), hlen]
      omega]
    rw [List.drop_zero, htake]
  · rw [jsSliceFrom]
    rw [show jsSliceIdx (a ++ '-' :: (b ++ '-' :: c)).length
        (((a.length + 1 + b.length : Nat) : Int) + 1) =
        a.length + 1 + b.length + 1 by
      rw [jsSliceIdx, if_neg (by omega), hlen]
      omega]
    rw [hdrop2]

/-- Parse of an identifier with no hyphen at all: both `indexOf` calls
return `-1`, `slice(0, -1)` drops the final character, and the design
number is the whole input with the first `".jpg"` occurrence removed. -/
theorem parseFile_no_hyphen (s : List Char) (hs : '-' ∉ s) :
    parseFile s = (s.take (s.length - 1), removeFirstOcc ".jpg".data s) := by
  have hnone : findCharIdx '-' s = none := findCharIdx_eq_none hs
  have hfirst : jsIndexOf s '-' 0 = -1 := by
    apply jsIndexOf_neg
    rw [Int.toNat_zero, List.drop_zero]
    exact hnone
  have hsep : jsIndexOf s '-' (-1 + 1) = -1 := by
    apply jsIndexOf_neg
    rw [show ((-1 : Int) + 1).toNat = 0 by omega, List.drop_zero]
    exact hnone
  rw [parseFile, hfirst, hsep, Prod.mk.injEq]
  constructor
  · rw [jsSlice,
      show jsSliceIdx s.length 0 = 0 by simp [jsSliceIdx],
      show jsSliceIdx s.length (-1) = s.length - 1 by
        rw [jsSliceIdx, if_pos (by omega)]
        omega,
      List.drop_zero]
  · rw [jsSliceFrom,
      show jsSliceIdx s.length (-1 + 1) = 0 by simp [jsSliceIdx],
      List.drop_zero]

/-- Parse of an identifier with exactly one hyphen (`a-c`, both parts
hyphen-free): the second `indexOf` returns `-1` and the result
degenerates exactly as in the no-hyphen case. -/
theorem parseFile_one_hyphen (a c : List Char) (ha : '-' ∉ a) (hc : '-' ∉ c) :
    parseFile (a ++ '-' :: c) =
      ((a ++ '-' :: c).take ((a ++ '-' :: c).length - 1),
        removeFirstOcc ".jpg".data (a ++ '-' :: c)) := by
  have hfirst : jsIndexOf (a ++ '-' :: c) '-' 0 = (a.length : Int) := by
    rw [jsIndexOf_pos (by rw [Int.toNat_zero, List.drop_zero]
                          exact findCharIdx_split ha)]
    simp
  have hsep : jsIndexOf (a ++ '-' :: c) '-' ((a.length : Int) + 1) = -1 := by
    apply jsIndexOf_neg
    rw [show ((a.length : Int) + 1).toNat = a.length + 1 by omega,
      drop_append_cons a '-' c]
    exact findCharIdx_eq_none hc
  rw [parseFile, hfirst, hsep, Prod.mk.injEq]
  constructor
  · rw [jsSlice,
      show jsSliceIdx (a ++ '-' :: c).length 0 = 0 by simp [jsSliceIdx],
      show jsSliceIdx (a ++ '-' :: c).length (-1) = (a ++ '-' :: c).length - 1 by
        rw [jsSliceIdx, if_pos (by omega)]
        omega,
      List.drop_zero]
  · rw [jsSliceFrom,
      show jsSliceIdx (a ++ '-' :: c).length (-1 + 1) = 0 by simp [jsSliceIdx],
      List.drop_zero]

/-- C4 (amended): for identifiers with at least two hyphens the parser
splits at the second hyphen — template identifier strictly before it,
design number strictly after it with the first `".jpg"` occurrence
removed.  For identifiers with zero or one hyphen there is no grammar
rule: the separator index is `-1` and the slice arithmetic degenerates
to template = the input minus its final character, design number = the
whole input with the first `".jpg"` occurrence removed. -/
theorem parseFile_cases :
    (∀ a b c : List Char, '-' ∉ a → '-' ∉ b →
      parseFile (a ++ '-' :: (b ++ '-' :: c)) =
        (a ++ '-' :: b, removeFirstOcc ".jpg".data c)) ∧
    (∀ s : List Char, '-' ∉ s →
      parseFile s = (s.take (s.length - 1), removeFirstOcc ".jpg".data s)) ∧
    (∀ a c : List Char, '-' ∉ a → '-' ∉ c →
      parseFile (a ++ '-' :: c) =
        ((a ++ '-' :: c).take ((a ++ '-' :: c).length - 1),
          removeFirstOcc ".jpg".data (a ++ '-' :: c))) :=
  ⟨parseFile_two_hyphens, parseFile_no_hyphen, parseFile_one_hyphen⟩

/-- Witness for C4 at `"hoodie-black-4001.jpg"`: the second hyphen
separates template `"hoodie-black"` from design number `"4001"`. -/
theorem parseFile_cases_witness :
    parseFile ("hoodie".data ++ '-' :: ("black".data ++ '-' :: "4001.jpg".data)) =
      ("hoodie".data ++ '-' :: "black".data,
        removeFirstOcc ".jpg".data "4001.jpg".data) ∧
    "hoodie".data ++ '-' :: ("black".data ++ '-' :: "4001.jpg".data) =
      "hoodie-black-4001.jpg".data ∧
    removeFirstOcc ".jpg".data "4001.jpg".data = "4001".data :=
  ⟨parseFile_cases.1 "hoodie".data "black".data "4001.jpg".data
    (by decide) (by decide), by decide, by decide⟩

/-- Counterexample for C4 as stated: the one-hyphen identifier
`"tee-4001.jpg"` fits the grammar `<templateIdentifier>-<designNumber>.<ext>`
with template `"tee"` and design number `"4001"`, but the code's index
arithmetic (separator `-1`) parses it as template `"tee-4001.jp"` and
design number `"tee-4001"` — not a rule of the grammar. -/
theorem parseFile_one_hyphen_garbage :
    parseFile "tee-4001.jpg".data = ("tee-4001.jp".data, "tee-4001".data) ∧
    parseFile "tee-4001.jpg".data ≠ ("tee".data, "4001".data) := by
  constructor
  · decide
  · decide

/-! ## Placement registry and scaler/positioner
(src/unnamed/part_000 lines 50-90 and 142-150) -/

/-- `PRODUCT_TO_PLACEMENT` (lines 50-76): product prefix → placement key. -/
def PRODUCT_TO_PLACEMENT : List (String × String) := [
  ("tee", "tee"), ("teeback", "tee"), ("nltbtee", "tee"), ("5300", "tee"),
  ("lstee", "tee"), ("lsteeback", "tee"),
  ("performancelstee", "tee"), ("performancelsteeback", "tee"),
  ("tank", "tee"), ("tankback", "tee"),
  ("sleeveless", "tee"), ("sleevelessback", "tee"),
  ("raglan", "tee"), ("raglanback", "tee"), ("ring", "tee"), ("ringback", "tee"),
  ("nl6733", "tee"), ("nl3900", "tee"), ("nl3900back", "tee"),
  ("64v00l", "tee"), ("64v00lback", "tee"),
  ("youthtee", "tee"), ("youthteeback", "tee"),
  ("toddlertee", "tee"), ("toddlerteeback", "tee"),
  ("td1000", "tee"), ("g5000real", "tee"), ("g5000realb", "tee"),
  ("g5000realc", "tee"),
  ("tote", "tee"),
  ("hoodie", "hoodie"), ("hoodieback", "hoodie"),
  ("jha009", "hoodie"), ("jha009back", "hoodie"),
  ("ythhoodie", "hoodie"), ("ythhoodieback", "hoodie"),
  ("toddlerhoodie", "hoodie"), ("toddlerhoodieback", "hoodie"),
  ("lsteehoodie", "hoodie"), ("lsteehoodieback", "hoodie"),
  ("sweat", "sweat"), ("sweatback", "sweat"),
  ("youthsweat", "sweat"), ("youthsweatback", "sweat"),
  ("toddlersweat", "sweat"), ("toddlersweatback", "sweat"),
  ("coach", "coach"), ("coachback", "coach"),
  ("workshirt", "coach"), ("workshirtback", "coach"),
  ("onesie", "onesie"),
  ("lunchbox", "lunchbox"),
  ("sportbag", "sportbag"),
  ("trucker", "hat"), ("ottowashed6p", "hat")]

/-- A placement entry of the `PL` table (lines 79-88).  Fields absent in
the source literal (`undefined` in JavaScript, only ever read on the
branches that defined them, with `lc` read as falsy) are filled with `0`
and `false`. -/
structure PlacementCfg where
  r : Bool
  w : ℚ
  y : ℚ
  h : ℚ
  lc : Bool
  x : ℚ
deriving DecidableEq

/-- The `tee` entry of `PL`: `{ r:false }`. -/
def teeCfg : PlacementCfg := PlacementCfg.mk false 0 0 0 false 0

/-- The `hoodie` entry of `PL`: `{ r:true, w:0.50, y:0.24, h:0.38 }`. -/
def hoodieCfg : PlacementCfg :=
  PlacementCfg.mk true (50/100) (24/100) (38/100) false 0

/-- The placement table `PL` (lines 79-88); lookup of an unknown key is
`undefined` (`none`). -/
def PL (key : String) : Option PlacementCfg :=
  if key == "tee" then some teeCfg
  else if key == "hoodie" then some hoodieCfg
  else if key == "sweat" then
    some (PlacementCfg.mk true (445/1000) (23/100) (52/100) false 0)
  else if key == "coach" then
    some (PlacementCfg.mk true (190/1000) (28/100) (156/1000) true (55/100))
  else if key == "onesie" then
    some (PlacementCfg.mk true (40/100) (17/100) (48/100) false 0)
  else if key == "lunchbox" then
    some (PlacementCfg.mk true (75/100) (21/100) (43/100) false 0)
  else if key == "sportbag" then
    some (PlacementCfg.mk true (55/100) (29/100) (48/100) false 0)
  else if key == "hat" then
    some (PlacementCfg.mk true (35/100) (22/100) (30/100) false 0)
  else none

/-- Canvas width (line 90). -/
def CW : ℚ := 826

/-- Canvas height (line 90). -/
def CH : ℚ := 1011

/-- `Math.round`: rounds half toward positive infinity (JavaScript
semantics, which also apply to the negative half-values). -/
def jround (q : ℚ) : ℤ := Int.floor (q + 1/2)

/-- `maxW = Math.round(CW * cfg.w)` (line 142). -/
def maxWOf (cfg : PlacementCfg) : ℤ := jround (CW * cfg.w)

/-- `maxH = Math.round(CH * cfg.h)` (line 143). -/
def maxHOf (cfg : PlacementCfg) : ℤ := jround (CH * cfg.h)

/-- `sc = Math.min(maxW / dw, maxH / dh)` (line 144). -/
def scaleOf (cfg : PlacementCfg) (dw dh : ℕ) : ℚ :=
  min ((maxWOf cfg : ℚ) / dw) ((maxHOf cfg : ℚ) / dh)

/-- Result of the scaler/positioner: target size and composite offset. -/
structure Placed where
  tw : ℤ
  th : ℤ
  top : ℤ
  left : ℤ
deriving DecidableEq

/-- Lines 142-150 of `generateImage`: scale the trimmed design of size
`dw × dh` into the placement box and position it on the canvas. -/
def placeDesign (cfg : PlacementCfg) (dw dh : ℕ) : Placed :=
  let tw := jround (dw * scaleOf cfg dw dh)
  let th := jround (dh * scaleOf cfg dw dh)
  let top := jround (CH * cfg.y)
  let left := if cfg.lc then jround (CW * cfg.x) else jround ((CW - tw) / 2)
  Placed.mk tw th top left

theorem jround_eq {q : ℚ} {m : ℤ} (h1 : (m : ℚ) ≤ q + 1/2)
    (h2 : q + 1/2 < m + 1) : jround q = m := by
  rw [jround, Int.floor_eq_iff]
  exact ⟨h1, h2⟩

theorem jround_intCast (m : ℤ) : jround (m : ℚ) = m := by
  refine jround_eq (by linarith) ?_
  linarith

theorem jround_mono {p q : ℚ} (h : p ≤ q) : jround p ≤ jround q :=
  Int.floor_le_floor (by linarith)

theorem abs_jround_sub_le (q : ℚ) : |((jround q : ℤ) : ℚ) - q| ≤ 1/2 := by
  rw [abs_le]
  have hle : ((jround q : ℤ) : ℚ) ≤ q + 1/2 := Int.floor_le (q + 1/2)
  have hgt : q + 1/2 - 1 < ((jround q : ℤ) : ℚ) := Int.sub_one_lt_floor (q + 1/2)
  constructor <;> linarith

/-! ## Spec-side scaler/positioner (C2)

The `PlacementSpec` record and the `placeOn` algorithm below are
modelled from the spec's words (§3 and §4.4 steps 1-5), to be compared
with `placeDesign`, the embedding of the code. -/

/-- Modelled from the spec: `PlacementSpec` of §3, with the anchor field
flattened into a flag plus the fixed horizontal fraction. -/
structure PlacementSpec where
  repositionRequired : Bool
  maxWidthFraction : ℚ
  maxHeightFraction : ℚ
  verticalOffsetFraction : ℚ
  anchorFixed : Bool
  fixedHorizontalFraction : ℚ

/-- Modelled from the spec: the Scaler/Positioner algorithm of §4.4,
steps 1-5, verbatim. -/
def placeOnSpec (spec : PlacementSpec) (dw dh : ℕ) : Placed :=
  let maxW := jround (CW * spec.maxWidthFraction)
  let maxH := jround (CH * spec.maxHeightFraction)
  let scale := min ((maxW : ℚ) / dw) ((maxH : ℚ) / dh)
  let targetW := jround (dw * scale)
  let targetH := jround (dh * scale)
  let top := jround (CH * spec.verticalOffsetFraction)
  let left := if spec.anchorFixed then jround (CW * spec.fixedHorizontalFraction)
    else jround ((CW - targetW) / 2)
  Placed.mk targetW targetH top left

/-- Reading a code placement entry as the spec's `PlacementSpec`:
`w`/`h` are the box fractions, `y` the vertical offset fraction, `lc`
the fixed-anchor flag and `x` its horizontal fraction. -/
def specOfCfg (cfg : PlacementCfg) : PlacementSpec :=
  PlacementSpec.mk cfg.r cfg.w cfg.h cfg.y cfg.lc cfg.x

/-- C2: for every placement entry with repositioning required and every
trimmed design with `dw ≥ 1`, `dh ≥ 1` on the 826×1011 canvas, the
code's scaler/positioner computes exactly the spec's formulas:
`maxW = round(CW*maxWidthFraction)`, `maxH = round(CH*maxHeightFraction)`,
`scale = min(maxW/dw, maxH/dh)`, `targetW = round(dw*scale)`,
`targetH = round(dh*scale)`, `top = round(CH*verticalOffsetFraction)`,
and `left = round(CW*fixedHorizontalFraction)` for a fixed anchor, else
`round((CW - targetW)/2)`. -/
theorem placeDesign_eq_placeOnSpec (cfg : PlacementCfg) (dw dh : ℕ)
    (hr : cfg.r = true) (hdw : 1 ≤ dw) (hdh : 1 ≤ dh) :
    placeDesign cfg dw dh = placeOnSpec (specOfCfg cfg) dw dh := rfl

/-- Witness for C2 at the hoodie entry with a 600×300 trimmed design. -/
theorem placeDesign_eq_placeOnSpec_witness :
    placeDesign hoodieCfg 600 300 = placeOnSpec (specOfCfg hoodieCfg) 600 300 :=
  placeDesign_eq_placeOnSpec hoodieCfg 600 300 rfl (by decide) (by decide)

/-- C6: with repositioning required and `dw, dh ≥ 1`, the computed
target dimensions are both within half a pixel of `dw*s` and `dh*s` for
the single scale factor `s` (aspect ratio preserved within rounding
tolerance), and fit in the placement box:
`tw ≤ round(CW*w)` and `th ≤ round(CH*h)`. -/
theorem placeDesign_aspect_and_bounds (cfg : PlacementCfg) (dw dh : ℕ)
    (hr : cfg.r = true) (hdw : 1 ≤ dw) (hdh : 1 ≤ dh) :
    ∃ s : ℚ, s = scaleOf cfg dw dh ∧
      |(((placeDesign cfg dw dh).tw : ℤ) : ℚ) - dw * s| ≤ 1/2 ∧
      |(((placeDesign cfg dw dh).th : ℤ) : ℚ) - dh * s| ≤ 1/2 ∧
      (placeDesign cfg dw dh).tw ≤ jround (CW * cfg.w) ∧
      (placeDesign cfg dw dh).th ≤ jround (CH * cfg.h) := by
  have hdw0 : (0 : ℚ) < (dw : ℚ) := by
    have : 0 < dw := Nat.lt_of_lt_of_le Nat.zero_lt_one hdw
    exact_mod_cast this
  have hdh0 : (0 : ℚ) < (dh : ℚ) := by
    have : 0 < dh := Nat.lt_of_lt_of_le Nat.zero_lt_one hdh
    exact_mod_cast this
  refine ⟨scaleOf cfg dw dh, rfl, abs_jround_sub_le _, abs_jround_sub_le _, ?_, ?_⟩
  · show jround ((dw : ℚ) * scaleOf cfg dw dh) ≤ jround (CW * cfg.w)
    have hs : scaleOf cfg dw dh ≤ (maxWOf cfg : ℚ) / dw := min_le_left _ _
    have h1 : (dw : ℚ) * scaleOf cfg dw dh ≤ (maxWOf cfg : ℚ) := by
      have h2 := (le_div_iff₀ hdw0).mp hs
      calc (dw : ℚ) * scaleOf cfg dw dh = scaleOf cfg dw dh * dw := mul_comm _ _
        _ ≤ (maxWOf cfg : ℚ) := h2
    calc jround ((dw : ℚ) * scaleOf cfg dw dh)
        ≤ jround ((maxWOf cfg : ℚ)) := jround_mono h1
      _ = maxWOf cfg := jround_intCast _
  · show jround ((dh : ℚ) * scaleOf cfg dw dh) ≤ jround (CH * cfg.h)
    have hs : scaleOf cfg dw dh ≤ (maxHOf cfg : ℚ) / dh := min_le_right _ _
    have h1 : (dh : ℚ) * scaleOf cfg dw dh ≤ (maxHOf cfg : ℚ) := by
      have h2 := (le_div_iff₀ hdh0).mp hs
      calc (dh : ℚ) * scaleOf cfg dw dh = scaleOf cfg dw dh * dh := mul_comm _ _
        _ ≤ (maxHOf cfg : ℚ) := h2
    calc jround ((dh : ℚ) * scaleOf cfg dw dh)
        ≤ jround ((maxHOf cfg : ℚ)) := jround_mono h1
      _ = maxHOf cfg := jround_intCast _

/-- Witness for C6 at the hoodie entry with a 600×300 trimmed design. -/
theorem placeDesign_aspect_and_bounds_witness :
    ∃ s : ℚ, s = scaleOf hoodieCfg 600 300 ∧
      |(((placeDesign hoodieCfg 600 300).tw : ℤ) : ℚ) - 600 * s| ≤ 1/2 ∧
      |(((placeDesign hoodieCfg 600 300).th : ℤ) : ℚ) - 300 * s| ≤ 1/2 ∧
      (placeDesign hoodieCfg 600 300).tw ≤ jround (CW * hoodieCfg.w) ∧
      (placeDesign hoodieCfg 600 300).th ≤ jround (CH * hoodieCfg.h) := by
  have h := placeDesign_aspect_and_bounds hoodieCfg 600 300 rfl
    (by decide) (by decide)
  exact_mod_cast h

theorem maxW_hoodie : maxWOf hoodieCfg = 413 := by
  rw [maxWOf, show hoodieCfg.w = 50/100 from rfl, CW]
  exact jround_eq (by norm_num) (by norm_num)

theorem maxH_hoodie : maxHOf hoodieCfg = 384 := by
  rw [maxHOf, show hoodieCfg.h = 38/100 from rfl, CH]
  exact jround_eq (by norm_num) (by norm_num)

theorem scale_hoodie_600_300 : scaleOf hoodieCfg 600 300 = 413/600 := by
  rw [scaleOf, maxW_hoodie, maxH_hoodie]
  rw [show ((413 : ℤ) : ℚ) / (600 : ℕ) = 413/600 by norm_num,
    show ((384 : ℤ) : ℚ) / (300 : ℕ) = 384/300 by norm_num]
  rw [min_eq_left (by norm_num)]

/-- C7: the spec's hoodie scenario.  With the hoodie entry
`{w:0.50, y:0.24, h:0.38}` on the 826×1011 canvas and a 600×300 trimmed
design the code computes `scale = min(413/600, 384/300)` (≈ 0.688 within
1/1000), target width exactly 413, target height within 1 of 206 (the
exact half-up rounding of 206.5 is 207), `top = 243` and `left = 207`. -/
theorem hoodie_scenario :
    PL "hoodie" = some hoodieCfg ∧
    scaleOf hoodieCfg 600 300 = min ((413 : ℚ)/600) (384/300) ∧
    |scaleOf hoodieCfg 600 300 - 688/1000| ≤ 1/1000 ∧
    (placeDesign hoodieCfg 600 300).tw = 413 ∧
    (placeDesign hoodieCfg 600 300).th = 207 ∧
    |(((placeDesign hoodieCfg 600 300).th : ℤ) : ℚ) - 206| ≤ 1 ∧
    (placeDesign hoodieCfg 600 300).top = 243 ∧
    (placeDesign hoodieCfg 600 300).left = 207 := by
  have htw : (placeDesign hoodieCfg 600 300).tw = 413 := by
    show jround (((600 : ℕ) : ℚ) * scaleOf hoodieCfg 600 300) = 413
    rw [scale_hoodie_600_300]
    exact jround_eq (by norm_num) (by norm_num)
  have hth : (placeDesign hoodieCfg 600 300).th = 207 := by
    show jround (((300 : ℕ) : ℚ) * scaleOf hoodieCfg 600 300) = 207
    rw [scale_hoodie_600_300]
    exact jround_eq (by norm_num) (by norm_num)
  have htop : (placeDesign hoodieCfg 600 300).top = 243 := by
    show jround (CH * hoodieCfg.y) = 243
    rw [CH, show hoodieCfg.y = 24/100 from rfl]
    exact jround_eq (by norm_num) (by norm_num)
  have hleft : (placeDesign hoodieCfg 600 300).left = 207 := by
    show (if hoodieCfg.lc then jround (CW * hoodieCfg.x)
      else jround ((CW - (jround (((600 : ℕ) : ℚ) * scaleOf hoodieCfg 600 300) : ℤ)) / 2)) = 207
    rw [show hoodieCfg.lc = false from rfl, if_neg (by simp)]
    rw [show jround (((600 : ℕ) : ℚ) * scaleOf hoodieCfg 600 300) = 413 from htw]
    rw [CW]
    exact jround_eq (by norm_num) (by norm_num)
  refine ⟨rfl, ?_, ?_, htw, hth, ?_, htop, hleft⟩
  · rw [scale_hoodie_600_300, min_eq_left (by norm_num)]
  · rw [scale_hoodie_600_300, abs_le]
    norm_num
  · rw [hth, abs_le]
    norm_num

/-- C9 (amended): the scale factor is not clamped to 1.  Whenever the
trimmed design is strictly smaller than the placement box on both axes,
the scale strictly exceeds 1, the target dimensions are at least the
source dimensions, and on the binding axis the target strictly exceeds
the source (it reaches the box bound exactly); the other rounded
dimension may equal its source dimension. -/
theorem upscale_unclamped (cfg : PlacementCfg) (dw dh : ℕ) (hr : cfg.r = true)
    (hdw : 1 ≤ dw) (hdh : 1 ≤ dh)
    (h1 : (dw : ℤ) < maxWOf cfg) (h2 : (dh : ℤ) < maxHOf cfg) :
    1 < scaleOf cfg dw dh ∧
    (dw : ℤ) ≤ (placeDesign cfg dw dh).tw ∧
    (dh : ℤ) ≤ (placeDesign cfg dw dh).th ∧
    ((dw : ℤ) < (placeDesign cfg dw dh).tw ∨
      (dh : ℤ) < (placeDesign cfg dw dh).th) := by
  have hdw0 : (0 : ℚ) < (dw : ℚ) := by
    have : 0 < dw := Nat.lt_of_lt_of_le Nat.zero_lt_one hdw
    exact_mod_cast this
  have hdh0 : (0 : ℚ) < (dh : ℚ) := by
    have : 0 < dh := Nat.lt_of_lt_of_le Nat.zero_lt_one hdh
    exact_mod_cast this
  have hWq : ((dw : ℕ) : ℚ) < ((maxWOf cfg : ℤ) : ℚ) := by exact_mod_cast h1
  have hHq : ((dh : ℕ) : ℚ) < ((maxHOf cfg : ℤ) : ℚ) := by exact_mod_cast h2
  have hsc : 1 < scaleOf cfg dw dh :=
    lt_min ((one_lt_div hdw0).mpr hWq) ((one_lt_div hdh0).mpr hHq)
  have hjw : jround (((dw : ℕ) : ℚ)) = (dw : ℤ) := by
    rw [show ((dw : ℕ) : ℚ) = (((dw : ℕ) : ℤ) : ℚ) by push_cast; ring]
    exact jround_intCast _
  have hjh : jround (((dh : ℕ) : ℚ)) = (dh : ℤ) := by
    rw [show ((dh : ℕ) : ℚ) = (((dh : ℕ) : ℤ) : ℚ) by push_cast; ring]
    exact jround_intCast _
  have htw : (dw : ℤ) ≤ (placeDesign cfg dw dh).tw := by
    show (dw : ℤ) ≤ jround ((dw : ℚ) * scaleOf cfg dw dh)
    rw [← hjw]
    exact jround_mono (le_mul_of_one_le_right (le_of_lt hdw0) (le_of_lt hsc))
  have hth : (dh : ℤ) ≤ (placeDesign cfg dw dh).th := by
    show (dh : ℤ) ≤ jround ((dh : ℚ) * scaleOf cfg dw dh)
    rw [← hjh]
    exact jround_mono (le_mul_of_one_le_right (le_of_lt hdh0) (le_of_lt hsc))
  refine ⟨hsc, htw, hth, ?_⟩
  rcases le_total ((maxWOf cfg : ℚ) / dw) ((maxHOf cfg : ℚ) / dh) with hm | hm
  · left
    show (dw : ℤ) < jround ((dw : ℚ) * scaleOf cfg dw dh)
    have hs : scaleOf cfg dw dh = (maxWOf cfg : ℚ) / dw := min_eq_left hm
    rw [hs, mul_div_cancel₀ _ (ne_of_gt hdw0), jround_intCast]
    exact h1
  · right
    show (dh : ℤ) < jround ((dh : ℚ) * scaleOf cfg dw dh)
    have hs : scaleOf cfg dw dh = (maxHOf cfg : ℚ) / dh := min_eq_right hm
    rw [hs, mul_div_cancel₀ _ (ne_of_gt hdh0), jround_intCast]
    exact h2

/-- Witness for the amended C9: hoodie entry, 200×100 trimmed design
(strictly inside the 413×384 box). -/
theorem upscale_unclamped_witness :
    1 < scaleOf hoodieCfg 200 100 ∧
    (200 : ℤ) ≤ (placeDesign hoodieCfg 200 100).tw ∧
    (100 : ℤ) ≤ (placeDesign hoodieCfg 200 100).th ∧
    ((200 : ℤ) < (placeDesign hoodieCfg 200 100).tw ∨
      (100 : ℤ) < (placeDesign hoodieCfg 200 100).th) := by
  have h := upscale_unclamped hoodieCfg 200 100 rfl (by decide) (by decide)
    (by rw [maxW_hoodie]; decide) (by rw [maxH_hoodie]; decide)
  exact_mod_cast h

/-- Counterexample for C9 as stated: hoodie entry with a 412×1 trimmed
design.  Both dimensions are strictly inside the box (412 < 413,
1 < 384) and the scale 413/412 exceeds 1, yet the computed target
height `round(1 * 413/412) = 1` equals the source height — the target
dimensions do not both strictly exceed the source dimensions. -/
theorem upscale_not_strict :
    (412 : ℤ) < maxWOf hoodieCfg ∧ (1 : ℤ) < maxHOf hoodieCfg ∧
    1 < scaleOf hoodieCfg 412 1 ∧
    (placeDesign hoodieCfg 412 1).th = 1 ∧
    ¬ ((412 : ℤ) < (placeDesign hoodieCfg 412 1).tw ∧
      (1 : ℤ) < (placeDesign hoodieCfg 412 1).th) := by
  have hsc : scaleOf hoodieCfg 412 1 = 413/412 := by
    rw [scaleOf, maxW_hoodie, maxH_hoodie]
    rw [show ((413 : ℤ) : ℚ) / (412 : ℕ) = 413/412 by norm_num,
      show ((384 : ℤ) : ℚ) / (1 : ℕ) = 384 by norm_num]
    rw [min_eq_left (by norm_num)]
  have hth : (placeDesign hoodieCfg 412 1).th = 1 := by
    show jround (((1 : ℕ) : ℚ) * scaleOf hoodieCfg 412 1) = 1
    rw [hsc]
    exact jround_eq (by norm_num) (by norm_num)
  refine ⟨by rw [maxW_hoodie]; decide, by rw [maxH_hoodie]; decide, ?_, hth, ?_⟩
  · rw [hsc]
    norm_num
  · intro hcontra
    rw [hth] at hcontra
    exact absurd hcontra.2 (by decide)

/-! ## Generation pipeline (src/unnamed/part_000 lines 103-160) and
routes (lines 162-209) -/

/-- The compositing plan of `generateImage`: the tee branch composites
the design asset as delivered — no trim, no resize, no offset (line
135); the reposition branch composites the scaled trim at the computed
offset (lines 139-152). -/
inductive Plan
  | asIs
  | reposition (p : Placed)
deriving DecidableEq

/-- `pk = product ? (PRODUCT_TO_PLACEMENT[product] || "tee") : "tee"`
(line 130). -/
def placementKey (product : Option String) : String :=
  match product with
  | none => "tee"
  | some p => (PRODUCT_TO_PLACEMENT.lookup p).getD "tee"

/-- The classification-to-composite decision of `generateImage` (lines
129-152) as a function of the parsed template name and the trimmed
design size: `if (!cfg || !cfg.r)` composite as-is, else reposition. -/
def computePlan (tplName : String) (dw dh : ℕ) : Plan :=
  match PL (placementKey (getProductFromTemplate tplName)) with
  | none => Plan.asIs
  | some cfg =>
    if cfg.r then Plan.reposition (placeDesign cfg dw dh) else Plan.asIs

/-- Outcomes of the external calls a single `generateImage` run can
make: output-cache and design-cache existence, the design fetch
(`none` when `fetch` throws, otherwise the response body size), the
filesystem write status, the trim result (`none` when `sharp.trim`
throws, otherwise the trimmed width and height), and whether the
remaining sharp resize/composite pipeline succeeds. -/
structure GenEnv where
  outputExists : Bool
  designExists : Bool
  fetchLen : Option ℕ
  writeOk : Bool
  trimResult : Option (ℕ × ℕ)
  sharpOk : Bool
deriving DecidableEq

/-- `downloadImage` (lines 103-110): returns `false` on a fetch error
or on a body smaller than 7000 bytes, in both cases without writing;
otherwise writes the design file and returns the write status.  First
component: download succeeded; second: a design file was written. -/
def downloadImage (env : GenEnv) : Bool × Bool :=
  match env.fetchLen with
  | none => (false, false)
  | some len => if len < 7000 then (false, false) else (env.writeOk, env.writeOk)

/-- Result of one `generateImage` run: `failed` for every `return false`
or caught exception, `composed` with the compositing plan otherwise. -/
inductive GenResult
  | failed
  | composed (plan : Plan)
deriving DecidableEq

/-- `generateImage` (lines 112-160) as a function of the request file
name and the environment: the generation result paired with whether
this call wrote a design file.  When the design asset already exists
locally no download occurs (lines 124-127, modelled by forcing the
written flag to `false`); the trim call only happens on the reposition
branch (line 139). -/
def generateImageM (file : List Char) (env : GenEnv) : GenResult × Bool :=
  let tplName := String.mk (parseFile file).1
  let dl := downloadImage env
  let wrote := !env.designExists && dl.2
  if !(env.designExists || dl.1) then (GenResult.failed, wrote)
  else
    match PL (placementKey (getProductFromTemplate tplName)) with
    | none =>
      (if env.sharpOk then GenResult.composed Plan.asIs else GenResult.failed,
        wrote)
    | some cfg =>
      if !cfg.r then
        (if env.sharpOk then GenResult.composed Plan.asIs else GenResult.failed,
          wrote)
      else
        match env.trimResult with
        | none => (GenResult.failed, wrote)
        | some (dw, dh) =>
          (if env.sharpOk then
            GenResult.composed (Plan.reposition (placeDesign cfg dw dh))
          else GenResult.failed, wrote)

/-- Externally observable response of the `/autogen/:file` route. -/
inductive RouteResult
  | cachedFile
  | generated
  | fallback
deriving DecidableEq

/-- The `/autogen/:file` route (lines 162-174): serve the cached output
if present, otherwise generate and serve, and on a falsy result or an
exception (including the generation timeout) serve the fallback JPEG. -/
def autogenRoute (file : List Char) (env : GenEnv) : RouteResult :=
  if env.outputExists then RouteResult.cachedFile
  else
    match (generateImageM file env).1 with
    | GenResult.failed => RouteResult.fallback
    | GenResult.composed _ => RouteResult.generated

/-- C5: a template identifier matching no vocabulary entry classifies to
`null`, the placement key falls back to `"tee"`, whose registry entry is
the no-reposition spec, and the composite plan is the design asset
unmodified — no trim, no resize, no offset. -/
theorem unclassified_uses_base (tplName : String) (dw dh : ℕ)
    (h : getProductFromTemplate tplName = none) :
    placementKey (getProductFromTemplate tplName) = "tee" ∧
    PL "tee" = some teeCfg ∧ teeCfg.r = false ∧
    computePlan tplName dw dh = Plan.asIs := by
  refine ⟨by rw [h]; rfl, rfl, rfl, ?_⟩
  simp only [computePlan, h]
  rfl

/-- Witness for C5 at the spec's identifier `"mystery-widget-99"`:
the route parses out the template name `"mystery-widget"`, which no
vocabulary entry matches. -/
theorem unclassified_uses_base_witness :
    (parseFile "mystery-widget-99.jpg".data).1 = "mystery-widget".data ∧
    (placementKey (getProductFromTemplate "mystery-widget") = "tee" ∧
      PL "tee" = some teeCfg ∧ teeCfg.r = false ∧
      computePlan "mystery-widget" 600 300 = Plan.asIs) :=
  ⟨by decide, unclassified_uses_base "mystery-widget" 600 300 (by decide)⟩

/-- C8: when the design asset is not cached and the fetch returns a body
smaller than 7000 bytes, the download is rejected: no design file is
written, `generateImage` produces no composite, and `/autogen` serves
the fallback image. -/
theorem small_fetch_fallback (file : List Char) (env : GenEnv) (len : ℕ)
    (hout : env.outputExists = false) (hdes : env.designExists = false)
    (hlen : env.fetchLen = some len) (hsmall : len < 7000) :
    downloadImage env = (false, false) ∧
    generateImageM file env = (GenResult.failed, false) ∧
    autogenRoute file env = RouteResult.fallback := by
  have hdl : downloadImage env = (false, false) := by
    simp only [downloadImage, hlen]
    rw [if_pos hsmall]
  have hgen : generateImageM file env = (GenResult.failed, false) := by
    simp [generateImageM, hdl, hdes]
  refine ⟨hdl, hgen, ?_⟩
  simp [autogenRoute, hout, hgen]

/-- The environment of the C8 witness: empty caches and a 4000-byte
fetch response. -/
def env4000 : GenEnv := GenEnv.mk false false (some 4000) true (some (600, 300)) true

/-- Witness for C8: a 4000-byte response (the spec's scenario) is
rejected and the request falls back. -/
theorem small_fetch_fallback_witness :
    downloadImage env4000 = (false, false) ∧
    generateImageM "hoodie-black-4001.jpg".data env4000 = (GenResult.failed, false) ∧
    autogenRoute "hoodie-black-4001.jpg".data env4000 = RouteResult.fallback :=
  small_fetch_fallback "hoodie-black-4001.jpg".data env4000 4000 rfl rfl rfl
    (by decide)

/-- C3 (amended): `generateImage` applies no minimum-size threshold to
the trimmed content.  For a repositioned product with the design asset
available, every trim result — of any dimensions — is scaled and
composited; extraction fails only when the trim call itself throws, and
then the request falls back to the fallback image rather than to the
untrimmed asset. -/
theorem no_trim_minimum (file : List Char) (env : GenEnv)
    (cfg : PlacementCfg) (dw dh : ℕ)
    (hcls : PL (placementKey (getProductFromTemplate
      (String.mk (parseFile file).1))) = some cfg)
    (hr : cfg.r = true) (hdes : env.designExists = true)
    (hsharp : env.sharpOk = true) :
    (env.trimResult = some (dw, dh) →
      (generateImageM file env).1 =
        GenResult.composed (Plan.reposition (placeDesign cfg dw dh))) ∧
    (env.trimResult = none →
      (generateImageM file env).1 = GenResult.failed ∧
      (env.outputExists = false →
        autogenRoute file env = RouteResult.fallback)) := by
  constructor
  · intro htrim
    simp [generateImageM, hdes, hcls, hr, hsharp, htrim]
  · intro htrim
    have hfail : (generateImageM file env).1 = GenResult.failed := by
      simp [generateImageM, hdes, hcls, hr, htrim]
    refine ⟨hfail, fun hout => ?_⟩
    simp [autogenRoute, hout, hfail]

/-- The environment of the C3 theorems: design cached, trim succeeds
with a degenerate 5×5 result, sharp succeeds. -/
def envTrim5 : GenEnv := GenEnv.mk false true (some 99999) true (some (5, 5)) true

/-- Witness for the amended C3: a 5×5 trim result (well under 10px) is
composited via the reposition plan. -/
theorem no_trim_minimum_witness :
    (generateImageM "hoodie-black-4001.jpg".data envTrim5).1 =
      GenResult.composed (Plan.reposition (placeDesign hoodieCfg 5 5)) :=
  (no_trim_minimum "hoodie-black-4001.jpg".data envTrim5 hoodieCfg 5 5
    rfl rfl rfl rfl).1 rfl

/-- Counterexample for C3 as stated: for `"hoodie-black-4001.jpg"` with
trimmed content 5×5 — both dimensions below the claimed 10px minimum —
generation does not fail: the degenerate trimmed content is scaled and
composited, and the route serves the generated composite, not a
fallback and not the untrimmed asset. -/
theorem trim_below_10px_composited :
    (5 : ℕ) < 10 ∧
    (generateImageM "hoodie-black-4001.jpg".data envTrim5).1 =
      GenResult.composed (Plan.reposition (placeDesign hoodieCfg 5 5)) ∧
    autogenRoute "hoodie-black-4001.jpg".data envTrim5 = RouteResult.generated :=
  ⟨by decide, rfl, rfl⟩

/-! ## Cache-bust file selection (lines 176-209) -/

/-- The design-folder deletion filter used by both `/bust/:file`
(line 183) and `/bust-all/:dNum` (line 200):
`fs.readdirSync(dd).filter(f => f.startsWith(dNum))`. -/
def bustDesignSelect (dNum : String) (designDir : List String) : List String :=
  designDir.filter (fun f => List.isPrefixOf dNum.data f.data)

/-- C10: the bust operations select design files to delete by a bare
string-prefix test on the design number: a listed file is selected
exactly when its name starts with the digits of the design number, so
busting `"17"` (the number `/bust/` derives from
`"hoodie-black-17.jpg"`) also selects `"175.png"` and
`"175-hoodie-sim.png"`, which belong to design 175. -/
theorem bust_selects_by_string_start :
    (∀ (n : String) (files : List String) (f : String),
      f ∈ bustDesignSelect n files ↔
        f ∈ files ∧ List.isPrefixOf n.data f.data = true) ∧
    (parseFile "hoodie-black-17.jpg".data).2 = "17".data ∧
    bustDesignSelect "17" ["175.png", "175-hoodie-sim.png", "17.png"] =
      ["175.png", "175-hoodie-sim.png", "17.png"] := by
  refine ⟨?_, by decide, by decide⟩
  intro n files f
  simp [bustDesignSelect, List.mem_filter]

/-- Witness for C10: `"175.png"`, a design-175 asset, is selected when
busting design number 17. -/
theorem bust_selects_by_string_start_witness :
    "175.png" ∈ bustDesignSelect "17" ["175.png", "175-hoodie-sim.png", "17.png"] :=
  (bust_selects_by_string_start.1 "17"
    ["175.png", "175-hoodie-sim.png", "17.png"] "175.png").mpr
    ⟨by decide, by decide⟩

end GLSim
